import Mathlib

/-!
Verification of the simDevTools autonomous-agent core.

This file is a shallow embedding, in Lean 4, of the needs model
(`src/js/needs-system.js`), time clock (`src/js/time-system.js`),
functional-item resource contract and item table (`FunctionalItem` /
`ItemDefinitions`), agent operations (`src/js/npc.js`) and entity index
(`src/js/entity-manager.js`) of the repository, together with theorems
settling the specification claims.

Modelling conventions:
* JavaScript numbers are rationals (`ℚ`); the arithmetic the embedded code
  performs is exact on every input exercised in the theorems below.
* JavaScript objects used as string-keyed dictionaries (the needs set, the
  satisfaction table, the relationship map, the two index maps) are
  insertion-ordered association lists, matching `Object.entries` / `Map` /
  `Set` iteration order.  Index buckets hold entity ids (JS holds object
  references; ids are unique).
* Ambient inputs (`Date.now()`) are explicit parameters.
* Pure rendering state (animation frame, facing direction, bob offset) is
  out of the specified core and is not part of the embedded state.
-/

namespace SimDev

/-- Embedding of `Math.min` on rationals (all numbers handled here are
finite, so the NaN cases of `Math.min` do not arise). -/
def jsMin (a b : ℚ) : ℚ := if a ≤ b then a else b

/-- Embedding of `Math.max` on rationals (all numbers handled here are
finite, so the NaN cases of `Math.max` do not arise). -/
def jsMax (a b : ℚ) : ℚ := if a ≤ b then b else a

/-! ## Needs model (src/js/needs-system.js) -/

/-- One need record: `{ value, max, priority }` as stored per kind in an
NPC's needs object. -/
structure Need where
  value : ℚ
  max : ℚ
  priority : ℚ
deriving DecidableEq, Repr

/-- A needs set: the string-keyed needs object, as an insertion-ordered
association list (JS `Object.entries` order). -/
abbrev Needs := List (String × Need)

/-- Configuration of one need kind in `NeedsSystem.needTypes` (the fields
the embedded operations read: `max` and `decayRate`; `name`, `color` and
`icon` are display-only). -/
structure NeedConfig where
  max : ℚ
  decayRate : ℚ
deriving DecidableEq, Repr

/-- The table `NeedsSystem.needTypes`: hunger 0.5, thirst 0.4, sleep 0.3,
happiness 0.2, social 0.25 per second, each with max 100; unknown keys are
absent (`undefined`). -/
def needTypes (key : String) : Option NeedConfig :=
  if key = "hunger" then some ⟨100, 1/2⟩
  else if key = "thirst" then some ⟨100, 2/5⟩
  else if key = "sleep" then some ⟨100, 3/10⟩
  else if key = "happiness" then some ⟨100, 1/5⟩
  else if key = "social" then some ⟨100, 1/4⟩
  else none

/-- Key lookup `needs[needType]`: the entry for a key (first occurrence; a
JS object has unique keys). -/
def lookupNeed (needs : Needs) (needType : String) : Option Need :=
  (needs.find? (fun p => p.1 == needType)).map (·.2)

/-- The method `NeedsSystem.initializeNeeds`: every kind of `needTypes`,
in declaration order, at `value = max`, `priority = 0`. -/
def initializeNeeds : Needs :=
  [("hunger", ⟨100, 100, 0⟩), ("thirst", ⟨100, 100, 0⟩),
   ("sleep", ⟨100, 100, 0⟩), ("happiness", ⟨100, 100, 0⟩),
   ("social", ⟨100, 100, 0⟩)]

/-- The method `NeedsSystem.updateNeeds(needs, deltaTime)`: for each entry
whose key has a `needTypes` config,
`value = max(0, value - decayRate * deltaTime)` and
`priority = 1 - value/max` (with the updated value); entries without a
config are left untouched. -/
def updateNeeds (needs : Needs) (deltaTime : ℚ) : Needs :=
  needs.map fun p =>
    match needTypes p.1 with
    | some config =>
        let v := jsMax 0 (p.2.value - config.decayRate * deltaTime)
        (p.1, { value := v, max := p.2.max, priority := 1 - v / p.2.max })
    | none => p

/-- The method `NeedsSystem.satisfyNeed(needs, needType, amount)`: if the
key is present, `value = min(max, value + amount)`; otherwise nothing at
all happens. -/
def satisfyNeed (needs : Needs) (needType : String) (amount : ℚ) : Needs :=
  if (lookupNeed needs needType).isSome then
    needs.map fun p =>
      if p.1 == needType then
        (p.1, { p.2 with value := jsMin p.2.max (p.2.value + amount) })
      else p
  else needs

/-- Loop body of `NeedsSystem.getMostUrgentNeed`: keep the running
`(maxPriority, urgentNeed)` pair, replacing it when an entry's priority
strictly exceeds the running maximum. -/
def urgentStep (acc : ℚ × Option String) (p : String × Need) : ℚ × Option String :=
  if p.2.priority > acc.1 then (p.2.priority, some p.1) else acc

/-- The method `NeedsSystem.getMostUrgentNeed(needs)`: scan with
`maxPriority = 0`, `urgentNeed = null`; return `urgentNeed` only when
`maxPriority > 0.3`. -/
def getMostUrgentNeed (needs : Needs) : Option String :=
  let r := needs.foldl urgentStep (0, none)
  if r.1 > 3/10 then r.2 else none

/-- The decay loop in `NPC.update` (src/js/npc.js lines 109–120): for each
entry of the needs object, `baseDecay = needTypes[key]?.decayRate || 0.5`,
`adjustedDecay = baseDecay * modifier(key)`,
`value = max(0, value - adjustedDecay * timeDelta)` and
`priority = 1 - value/max`.  The time-of-day modifier function is the
`timeSystem.getNeedDecayModifier` collaborator, passed explicitly. -/
def npcDecayNeeds (modifier : String → ℚ) (needs : Needs) (timeDelta : ℚ) : Needs :=
  needs.map fun p =>
    let baseDecay :=
      match needTypes p.1 with
      | some config => if config.decayRate = 0 then 1/2 else config.decayRate
      | none => 1/2
    let adjustedDecay := baseDecay * modifier p.1
    let v := jsMax 0 (p.2.value - adjustedDecay * timeDelta)
    (p.1, { value := v, max := p.2.max, priority := 1 - v / p.2.max })

/-! ## Time clock (src/js/time-system.js) -/

/-- State of `TimeSystem`: the clock value, the fixed segment thresholds
(in minutes from midnight) and the pause flag. -/
structure TimeSystem where
  timeScale : ℚ
  dayLength : ℚ
  currentTime : ℚ
  dawn : ℚ
  morning : ℚ
  noon : ℚ
  afternoon : ℚ
  evening : ℚ
  night : ℚ
  isPaused : Bool
deriving DecidableEq, Repr

/-- Constructor of `TimeSystem`: scale 60, day length 1440 minutes, clock
at 6:00 AM, thresholds dawn 360, morning 540, noon 720, afternoon 900,
evening 1080, night 1260. -/
def TimeSystem.init : TimeSystem :=
  { timeScale := 60, dayLength := 1440, currentTime := 360,
    dawn := 360, morning := 540, noon := 720, afternoon := 900,
    evening := 1080, night := 1260, isPaused := false }

/-- The method `TimeSystem.getTimeOfDay`: descending threshold cascade
with night as the wrap-around case. -/
def TimeSystem.getTimeOfDay (ts : TimeSystem) : String :=
  let time := ts.currentTime
  if time ≥ ts.night ∨ time < ts.dawn then "night"
  else if time ≥ ts.evening then "evening"
  else if time ≥ ts.afternoon then "afternoon"
  else if time ≥ ts.noon then "noon"
  else if time ≥ ts.morning then "morning"
  else if time ≥ ts.dawn then "dawn"
  else "night"

/-- The method `TimeSystem.isNighttime`: the time of day is `night` (the
`midnight` alternative is never produced by `getTimeOfDay`). -/
def TimeSystem.isNighttime (ts : TimeSystem) : Bool :=
  let timeOfDay := ts.getTimeOfDay
  timeOfDay == "night" || timeOfDay == "midnight"

/-- The method `TimeSystem.getNeedDecayModifier(needType)`: sleep 0.3 at
night / 1.5 by day; hunger and thirst always 1.0; happiness and social 0.7
at night / 1.0 by day; any other kind 1.0. -/
def TimeSystem.getNeedDecayModifier (ts : TimeSystem) (needType : String) : ℚ :=
  if needType = "sleep" then
    if ts.isNighttime then 3/10 else 3/2
  else if needType = "hunger" ∨ needType = "thirst" then 1
  else if needType = "happiness" ∨ needType = "social" then
    if ts.isNighttime then 7/10 else 1
  else 1

/-! ## Functional item (the resource contract) -/

/-- Sprite reference `{ tileset, tileX, tileY }`. -/
structure Sprite where
  tileset : String
  tileX : ℤ
  tileY : ℤ
deriving DecidableEq, Repr

/-- Item definition `{ name, category, satisfies, useTime, sprite }` from
`ItemDefinitions.getDefinitions`. -/
structure ItemDef where
  name : String
  category : String
  satisfies : List (String × ℚ)
  useTime : ℚ
  sprite : Sprite
deriving DecidableEq, Repr

/-- Amount lookup `itemDef.satisfies[needType]` (absent is `undefined`). -/
def lookupAmount (sat : List (String × ℚ)) (needType : String) : Option ℚ :=
  (sat.find? (fun p => p.1 == needType)).map (·.2)

/-- The `coffee` entry of `ItemDefinitions.getDefinitions`:
`satisfies: { thirst: 30, sleep: -10, happiness: 15 }, useTime: 2`. -/
def coffeeDef : ItemDef :=
  { name := "Coffee", category := "drink",
    satisfies := [("thirst", 30), ("sleep", -10), ("happiness", 15)],
    useTime := 2, sprite := ⟨"furniture", 6, 0⟩ }

/-- The `meal` entry of `ItemDefinitions.getDefinitions`:
`satisfies: { hunger: 60, happiness: 10 }, useTime: 5`. -/
def mealDef : ItemDef :=
  { name := "Meal", category := "food",
    satisfies := [("hunger", 60), ("happiness", 10)],
    useTime := 5, sprite := ⟨"furniture", 1, 0⟩ }

/-- State of a `FunctionalItem` entity: placement, definition and the
usage lifecycle fields `inUse` / `usedBy` / `useTime` / `maxUseTime`. -/
structure FunctionalItem where
  tileX : ℤ
  tileY : ℤ
  name : String
  itemDef : ItemDef
  inUse : Bool
  usedBy : Option String
  useTime : ℚ
  maxUseTime : ℚ
deriving DecidableEq, Repr

/-- Constructor of `FunctionalItem`: not in use, no occupant, zero elapsed
time, `maxUseTime = itemDef.useTime || 5`. -/
def FunctionalItem.create (x y : ℤ) (name : String) (itemDef : ItemDef) : FunctionalItem :=
  { tileX := x, tileY := y, name := name, itemDef := itemDef,
    inUse := false, usedBy := none, useTime := 0,
    maxUseTime := if itemDef.useTime = 0 then 5 else itemDef.useTime }

/-- The method `FunctionalItem.canSatisfy(needType)`: the satisfaction
table has a strictly positive entry for the kind. -/
def FunctionalItem.canSatisfy (it : FunctionalItem) (needType : String) : Bool :=
  match lookupAmount it.itemDef.satisfies needType with
  | some a => a > 0
  | none => false

/-- The method `FunctionalItem.getSatisfactionAmount(needType)`:
`satisfies[needType] || 0` (an absent entry, like a zero entry, gives 0). -/
def FunctionalItem.getSatisfactionAmount (it : FunctionalItem) (needType : String) : ℚ :=
  (lookupAmount it.itemDef.satisfies needType).getD 0

/-- The method `FunctionalItem.startUse(entityId)`: fails leaving the state
untouched if already in use; otherwise records the occupant with zero
elapsed time.  Returns the JS boolean result along with the new state. -/
def FunctionalItem.startUse (it : FunctionalItem) (entityId : String) :
    Bool × FunctionalItem :=
  if it.inUse then (false, it)
  else (true, { it with inUse := true, usedBy := some entityId, useTime := 0 })

/-- The method `FunctionalItem.completeUse`: release to available, clearing
the occupant and the elapsed time. -/
def FunctionalItem.completeUse (it : FunctionalItem) : FunctionalItem :=
  { it with inUse := false, usedBy := none, useTime := 0 }

/-- The method `FunctionalItem.stopUse` (interruption): release to
available, clearing the occupant and the elapsed time. -/
def FunctionalItem.stopUse (it : FunctionalItem) : FunctionalItem :=
  { it with inUse := false, usedBy := none, useTime := 0 }

/-- The method `FunctionalItem.updateUse(deltaTime)`: no-op returning false
when not in use; otherwise accumulate elapsed time and, upon reaching
`maxUseTime`, auto-release via `completeUse` and return true. -/
def FunctionalItem.updateUse (it : FunctionalItem) (deltaTime : ℚ) :
    Bool × FunctionalItem :=
  if it.inUse then
    let it1 := { it with useTime := it.useTime + deltaTime }
    if it1.useTime ≥ it1.maxUseTime then (true, it1.completeUse)
    else (false, it1)
  else (false, it)

/-- The method `FunctionalItem.isAvailable`: not in use. -/
def FunctionalItem.isAvailable (it : FunctionalItem) : Bool := !it.inUse

/-! ## Agent (src/js/npc.js) -/

/-- A goal `{ type: 'satisfy_need', needType, target }`.  The `target`
item reference is carried by the agent's `targetItem` field, which is what
`completeItemUse` reads. -/
structure Goal where
  gtype : String
  needType : String
deriving DecidableEq, Repr

/-- A relationship record `{ value, interactions, lastInteraction }`. -/
structure Relationship where
  value : ℚ
  interactions : ℕ
  lastInteraction : ℚ
deriving DecidableEq, Repr

/-- Key lookup in a relationship map. -/
def lookupRel (rels : List (String × Relationship)) (otherId : String) :
    Option Relationship :=
  (rels.find? (fun p => p.1 == otherId)).map (·.2)

/-- State of an `NPC` entity: the `Entity` base fields plus the AI, goal,
movement, needs and relationship fields of `NPC`.  (Pure animation state
and the dialogue index are display-only and not represented.) -/
structure NPC where
  id : String
  etype : String
  tileX : ℤ
  tileY : ℤ
  pixelX : ℚ
  pixelY : ℚ
  name : String
  sprite : Option Sprite
  interactable : Bool
  active : Bool
  markedForRemoval : Bool
  aiType : String
  patrolPath : List (ℤ × ℤ)
  dialogue : List String
  needs : Needs
  currentGoal : Option Goal
  targetItem : Option FunctionalItem
  usingItem : Bool
  useStartTime : ℚ
  moveSpeed : ℚ
  isMoving : Bool
  targetTileX : ℤ
  targetTileY : ℤ
  targetPixelX : ℚ
  targetPixelY : ℚ
  relationships : List (String × Relationship)
deriving DecidableEq, Repr

/-- Constructor `new NPC(x, y, name)` (the generated random id is an
explicit parameter): needs initialized to full, no goal, no target item,
not using, not moving, `moveSpeed 0.8`, targets on the spawn tile, empty
relationship map. -/
def NPC.create (x y : ℤ) (name : String) (id : String) : NPC :=
  { id := id, etype := "npc", tileX := x, tileY := y,
    pixelX := 32 * x, pixelY := 32 * y, name := name,
    sprite := some ⟨"character", 0, 0⟩, interactable := true,
    active := true, markedForRemoval := false,
    aiType := "autonomous", patrolPath := [],
    dialogue := ["Hello!", "How can I help you?"],
    needs := initializeNeeds, currentGoal := none, targetItem := none,
    usingItem := false, useStartTime := 0,
    moveSpeed := 4/5, isMoving := false,
    targetTileX := x, targetTileY := y,
    targetPixelX := 32 * x, targetPixelY := 32 * y,
    relationships := [] }

/-- The method `Entity.isAtPosition(x, y)`. -/
def NPC.isAtPosition (n : NPC) (x y : ℤ) : Bool :=
  n.tileX == x && n.tileY == y

/-- The method `NPC.moveTo(x, y)`: ignored while already moving; otherwise
set the tile and pixel targets and start moving.  (The facing-direction
and animation updates are display-only.) -/
def NPC.moveTo (n : NPC) (x y : ℤ) : NPC :=
  if n.isMoving then n
  else
    { n with targetTileX := x, targetTileY := y,
             targetPixelX := 32 * x, targetPixelY := 32 * y, isMoving := true }

/-- The method `NPC.startUsingItem(item)`: reserve through
`item.startUse(this.id)`; on success mark using, record the start time
(`Date.now()`, an explicit parameter) and stop moving.  The source mutates
the shared item object in place; the embedding carries the updated item in
the agent's `targetItem` reference. -/
def NPC.startUsingItem (n : NPC) (now : ℚ) (item : FunctionalItem) : NPC :=
  let r := item.startUse n.id
  if r.1 then
    { n with usingItem := true, useStartTime := now, isMoving := false,
             targetItem := some r.2 }
  else n

/-- The method `NPC.updateRelationship(other, change)` (keyed by the other
entity's id; `Date.now()` is an explicit parameter): create the record
lazily at `{value: 0, interactions: 0}`, then
`value = max(-100, min(100, value + change))`, increment the interaction
count and stamp the time. -/
def NPC.updateRelationship (n : NPC) (otherId : String) (change : ℚ) (now : ℚ) : NPC :=
  let rels :=
    if (n.relationships.find? (fun p => p.1 == otherId)).isSome then n.relationships
    else n.relationships ++ [(otherId, ⟨0, 0, now⟩)]
  { n with relationships := rels.map fun p =>
      if p.1 == otherId then
        (p.1, { value := jsMax (-100) (jsMin 100 (p.2.value + change)),
                interactions := p.2.interactions + 1, lastInteraction := now })
      else p }

/-- The method `NPC.completeItemUse`: when both a target item and a goal
are present, satisfy the goal's need by the item's table amount, then
satisfy every other kind the table lists by its table amount; in all cases
clear the using flag, the target item, the goal and the start time. -/
def NPC.completeItemUse (n : NPC) : NPC :=
  let n1 :=
    match n.targetItem, n.currentGoal with
    | some item, some goal =>
        let amount := item.getSatisfactionAmount goal.needType
        let needs1 := satisfyNeed n.needs goal.needType amount
        let needs2 := item.itemDef.satisfies.foldl
          (fun (acc : Needs) (p : String × ℚ) =>
            if p.1 == goal.needType then acc else satisfyNeed acc p.1 p.2)
          needs1
        { n with needs := needs2 }
    | _, _ => n
  { n1 with usingItem := false, targetItem := none, currentGoal := none,
            useStartTime := 0 }

/-- The movement block of `NPC.update` (src/js/npc.js lines 140–163), the
only part of `NPC.update` that writes the entity's position fields.  The
arrival test `Math.sqrt(dx*dx + dy*dy) < moveSpeed` is encoded without a
square root as `0 ≤ moveSpeed ∧ dx*dx + dy*dy < moveSpeed²`, which is
equivalent for every rational input; the glide branch's
`Math.sqrt` is `Rat.sqrt`, which agrees with it exactly whenever the
radicand is the square of a rational — the case for all the (axis-aligned)
motion evaluated in this file — and is some rational approximation on
radicands whose real square root is irrational. -/
def NPC.updateMovement (now : ℚ) (n : NPC) : NPC :=
  if n.isMoving && !n.usingItem then
    let dx := n.targetPixelX - n.pixelX
    let dy := n.targetPixelY - n.pixelY
    if 0 ≤ n.moveSpeed ∧ dx * dx + dy * dy < n.moveSpeed * n.moveSpeed then
      let n1 := { n with pixelX := n.targetPixelX, pixelY := n.targetPixelY }
      let n2 := { n1 with tileX := ⌊n1.pixelX / 32⌋, tileY := ⌊n1.pixelY / 32⌋,
                          isMoving := false }
      match n2.targetItem with
      | some item =>
          if n2.isAtPosition item.tileX item.tileY then n2.startUsingItem now item
          else n2
      | none => n2
    else
      let distance := Rat.sqrt (dx * dx + dy * dy)
      { n with pixelX := n.pixelX + dx / distance * n.moveSpeed,
               pixelY := n.pixelY + dy / distance * n.moveSpeed }
  else n

/-- Falsy-or on strings: `a || b` where the empty string is falsy. -/
def jsOrString (a b : String) : String := if a = "" then b else a

/-- Falsy-or on integers: `a || b` where 0 is falsy. -/
def jsOrInt (a b : ℤ) : ℤ := if a = 0 then b else a

/-- The serialized record produced by `NPC.serialize`: the `Entity` base
fields plus `aiType`, `patrolPath`, `dialogue` and the needs snapshot. -/
structure NPCData where
  id : String
  etype : String
  tileX : ℤ
  tileY : ℤ
  name : String
  sprite : Option Sprite
  interactable : Bool
  aiType : String
  patrolPath : List (ℤ × ℤ)
  dialogue : List String
  needs : Option Needs
deriving DecidableEq, Repr

/-- The method `NPC.serialize` (via `Entity.serialize`). -/
def NPC.serialize (n : NPC) : NPCData :=
  { id := n.id, etype := n.etype, tileX := n.tileX, tileY := n.tileY,
    name := n.name, sprite := n.sprite, interactable := n.interactable,
    aiType := n.aiType, patrolPath := n.patrolPath, dialogue := n.dialogue,
    needs := some n.needs }

/-- The method `NPC.deserialize(data)`: the `Entity` part restores id,
type, position (`setPosition(data.tileX || 0, data.tileY || 0)`), name,
sprite and interactable; the `NPC` part replaces the needs object when the
data carries one.  No other field is touched. -/
def NPC.deserialize (n : NPC) (data : NPCData) : NPC :=
  let n1 :=
    { n with id := jsOrString data.id n.id,
             etype := jsOrString data.etype n.etype,
             tileX := jsOrInt data.tileX 0, tileY := jsOrInt data.tileY 0,
             pixelX := 32 * jsOrInt data.tileX 0,
             pixelY := 32 * jsOrInt data.tileY 0,
             name := jsOrString data.name n.name,
             sprite := match data.sprite with | some s => some s | none => n.sprite,
             interactable := data.interactable }
  match data.needs with
  | some ns => { n1 with needs := ns }
  | none => n1

/-! ## Entity index (src/js/entity-manager.js)

The claims exercise the index over agent entities, so the entity lists hold
`NPC` states; buckets hold entity ids. -/

/-- State of `EntityManager`: the identity map (insertion-ordered), the
type buckets and the position buckets. -/
structure EntityManager where
  entities : List NPC
  entitiesByType : List (String × List String)
  entitiesByPosition : List ((ℤ × ℤ) × List String)
deriving DecidableEq, Repr

/-- Constructor of `EntityManager`: all three maps empty. -/
def EntityManager.empty : EntityManager :=
  { entities := [], entitiesByType := [], entitiesByPosition := [] }

/-- Adding an id to a bucket map at a key: create the bucket if missing
(JS `Set.add` is idempotent; ids are unique per entity, and an entity is
inserted at most once per bucket in the embedded runs). -/
def bucketAdd {κ : Type} [BEq κ] (buckets : List (κ × List String))
    (key : κ) (id : String) : List (κ × List String) :=
  if (buckets.find? (fun b => b.1 == key)).isSome then
    buckets.map fun b =>
      if b.1 == key then (b.1, if b.2.contains id then b.2 else b.2 ++ [id])
      else b
  else buckets ++ [(key, [id])]

/-- Removing an id from a bucket map at a key; `deleteEmpty` mirrors the
source's deletion of emptied position buckets (the type index keeps empty
buckets). -/
def bucketRemove {κ : Type} [BEq κ] (buckets : List (κ × List String))
    (key : κ) (id : String) (deleteEmpty : Bool) : List (κ × List String) :=
  let removed := buckets.map fun b =>
    if b.1 == key then (b.1, b.2.filter (fun x => !(x == id))) else b
  if deleteEmpty then
    removed.filter fun b => !(b.1 == key) || !b.2.isEmpty
  else removed

/-- The method `EntityManager.indexEntityPosition(entity)`: add the entity
to the bucket keyed by its current tile. -/
def EntityManager.indexEntityPosition (m : EntityManager) (e : NPC) : EntityManager :=
  { m with entitiesByPosition := bucketAdd m.entitiesByPosition (e.tileX, e.tileY) e.id }

/-- The method `EntityManager.unindexEntityPosition(entity)`: remove the
entity from the bucket keyed by its current tile, deleting the bucket if
it empties. -/
def EntityManager.unindexEntityPosition (m : EntityManager) (e : NPC) : EntityManager :=
  { m with entitiesByPosition := bucketRemove m.entitiesByPosition (e.tileX, e.tileY) e.id true }

/-- The method `EntityManager.updateEntityPosition(entity)`: the "old" key
is derived from the entity's current pixel position (`floor(pixel/32)`),
the "new" key from its tile fields; when they differ the entity is
unindexed and reindexed — both at the current tile key. -/
def EntityManager.updateEntityPosition (m : EntityManager) (e : NPC) : EntityManager :=
  let oldKey : ℤ × ℤ := (⌊e.pixelX / 32⌋, ⌊e.pixelY / 32⌋)
  let newKey : ℤ × ℤ := (e.tileX, e.tileY)
  if oldKey ≠ newKey then (m.unindexEntityPosition e).indexEntityPosition e
  else m

/-- The method `EntityManager.add(entity)`: identity map, type bucket
(`'functional'` normalization) and position bucket. -/
def EntityManager.add (m : EntityManager) (e : NPC) : EntityManager :=
  let newEntities :=
    if (m.entities.find? (fun x => x.id == e.id)).isSome then
      m.entities.map fun x => if x.id == e.id then e else x
    else m.entities ++ [e]
  let m1 := { m with entities := newEntities }
  let t := if e.etype == "functional" then "functional" else e.etype
  let m2 := { m1 with entitiesByType := bucketAdd m1.entitiesByType t e.id }
  m2.indexEntityPosition e

/-- The method `EntityManager.remove(id)`: nothing when the id is unknown;
otherwise delete from the identity map, the type bucket and the position
bucket (for the position bucket via `unindexEntityPosition`). -/
def EntityManager.remove (m : EntityManager) (id : String) : EntityManager :=
  match m.entities.find? (fun e => e.id == id) with
  | none => m
  | some entity =>
      let m1 := { m with entities := m.entities.filter (fun e => !(e.id == id)) }
      let m2 := { m1 with entitiesByType := bucketRemove m1.entitiesByType entity.etype entity.id false }
      m2.unindexEntityPosition entity

/-- The method `EntityManager.update(deltaTime)`: iterate the identity map
in order; collect marked entities, call `update` on active ones (the
per-entity update function is the explicit `upd` parameter, matching the
dynamic dispatch of `entity.update`) and re-validate their position
bucket; afterwards remove the collected ids. -/
def EntityManager.update (upd : NPC → NPC) (m : EntityManager) : EntityManager :=
  let r := m.entities.foldl
    (fun (acc : EntityManager × List String) e =>
      if e.markedForRemoval then (acc.1, acc.2 ++ [e.id])
      else if e.active then
        let e1 := upd e
        let updatedEntities := acc.1.entities.map fun x => if x.id == e.id then e1 else x
        let m1 := { acc.1 with entities := updatedEntities }
        (m1.updateEntityPosition e1, acc.2)
      else acc)
    (m, [])
  r.2.foldl (fun mm id => mm.remove id) r.1

/-- Position buckets containing a given id, in index order. -/
def bucketsContaining (pos : List ((ℤ × ℤ) × List String)) (id : String) :
    List (ℤ × ℤ) :=
  (pos.filter (fun b => b.2.contains id)).map (·.1)

/-- The position-bucket invariant of the spec's data model: every entity
of the index sits in exactly one position bucket, the one keyed by its
current tile. -/
def EntityManager.positionInvariant (m : EntityManager) : Bool :=
  m.entities.all fun e =>
    bucketsContaining m.entitiesByPosition e.id == [(e.tileX, e.tileY)]

/-! ## Concrete scenario states -/

/-- Scenario agent for the coffee run: all five needs at 50/100, goal
thirst, target a Coffee item (table `thirst 30, sleep −10, happiness 15`),
mid-use on the item's tile. -/
def coffeeScenarioNPC : NPC :=
  { NPC.create 2 0 "Ann" "npc1" with
    needs := [("hunger", ⟨50, 100, 1/2⟩), ("thirst", ⟨50, 100, 1/2⟩),
      ("sleep", ⟨50, 100, 1/2⟩), ("happiness", ⟨50, 100, 1/2⟩),
      ("social", ⟨50, 100, 1/2⟩)],
    currentGoal := some ⟨"satisfy_need", "thirst"⟩,
    targetItem := some (FunctionalItem.create 2 0 "Coffee" coffeeDef),
    usingItem := true }

/-- Scenario agent for the movement run: the agent spawned by
`new NPC(0, 0, 'Bob')` and commanded `moveTo(1, 0)`, parameterized by its
current pixel x-coordinate, tile x-coordinate and moving flag — the only
fields the run changes. -/
def cexNpc (px : ℚ) (tX : ℤ) (moving : Bool) : NPC :=
  { id := "npc1", etype := "npc", tileX := tX, tileY := 0,
    pixelX := px, pixelY := 0, name := "Bob",
    sprite := some ⟨"character", 0, 0⟩, interactable := true,
    active := true, markedForRemoval := false,
    aiType := "autonomous", patrolPath := [],
    dialogue := ["Hello!", "How can I help you?"],
    needs := initializeNeeds, currentGoal := none, targetItem := none,
    usingItem := false, useStartTime := 0,
    moveSpeed := 4/5, isMoving := moving,
    targetTileX := 1, targetTileY := 0,
    targetPixelX := 32, targetPixelY := 0,
    relationships := [] }

/-- Scenario index state for the movement run: the manager right after
`add` of the spawned agent — the position bucket is the spawn tile
`(0, 0)` — with the agent advanced to the given pixel/tile/moving state. -/
def cexMgr (px : ℚ) (tX : ℤ) (moving : Bool) : EntityManager :=
  { entities := [cexNpc px tX moving],
    entitiesByType := [("npc", ["npc1"])],
    entitiesByPosition := [((0, 0), ["npc1"])] }

end SimDev

namespace SimDev

/-! ## Helper lemmas -/

theorem jsMin_eq_min (a b : ℚ) : jsMin a b = min a b := (min_def a b).symm

theorem jsMax_eq_max (a b : ℚ) : jsMax a b = max a b := by
  unfold jsMax
  rcases le_or_lt a b with h | h
  · rw [if_pos h, max_eq_right h]
  · rw [if_neg (not_le.mpr h), max_eq_left h.le]

/-- Updating, in place, the value part of every entry whose key matches
leaves the first matching entry's lookup updated and every other lookup
untouched: the common shape of `satisfyNeed` and `updateRelationship`. -/
theorem lookup_map_keyUpdate {β : Type} (f : β → β) (t : List (String × β)) (k : String) :
    ((t.map fun p => if p.1 == k then (p.1, f p.2) else p).find?
        (fun p => p.1 == k)).map (·.2)
      = ((t.find? (fun p => p.1 == k)).map (·.2)).map f := by
  induction t with
  | nil => rfl
  | cons p t ih =>
    cases hb : (p.1 == k) with
    | true =>
      rw [List.map_cons, if_pos hb,
        @List.find?_cons_of_pos _ (fun q => q.1 == k) (p.1, f p.2) _ hb,
        @List.find?_cons_of_pos _ (fun q => q.1 == k) p _ hb]
      rfl
    | false =>
      have hcond : ¬ (p.1 == k) = true := by rw [hb]; exact Bool.false_ne_true
      rw [List.map_cons, if_neg hcond,
        @List.find?_cons_of_neg _ (fun q => q.1 == k) p _ hcond,
        @List.find?_cons_of_neg _ (fun q => q.1 == k) p _ hcond, ih]

/-- A keyed in-place update never introduces a key: a key absent before the
map is absent after it. -/
theorem find?_map_keyUpdate_none {β : Type} (f : β → β) (t : List (String × β))
    (k : String) (h : t.find? (fun p => p.1 == k) = none) :
    (t.map fun p => if p.1 == k then (p.1, f p.2) else p).find?
      (fun p => p.1 == k) = none := by
  have h2 := lookup_map_keyUpdate f t k
  rw [h] at h2
  simp only [Option.map_none'] at h2
  exact Option.map_eq_none'.mp h2

/-- A keyed in-place update at one key leaves the search for any other key
untouched. -/
theorem find?_map_keyUpdate_other {β : Type} (f : β → β) (t : List (String × β))
    (k k2 : String) (hne : k ≠ k2) :
    (t.map fun p => if p.1 == k2 then (p.1, f p.2) else p).find? (fun p => p.1 == k)
      = t.find? (fun p => p.1 == k) := by
  induction t with
  | nil => rfl
  | cons q t ih =>
    by_cases hq2 : (q.1 == k2) = true
    · have hqk : ¬ (q.1 == k) = true := by
        rw [beq_iff_eq] at hq2 ⊢
        rw [hq2]
        exact fun hh => hne hh.symm
      rw [List.map_cons, if_pos hq2,
        @List.find?_cons_of_neg _ (fun p => p.1 == k) (q.1, f q.2) _ hqk,
        @List.find?_cons_of_neg _ (fun p => p.1 == k) q _ hqk, ih]
    · rw [List.map_cons, if_neg hq2]
      by_cases hqk : (q.1 == k) = true
      · rw [@List.find?_cons_of_pos _ (fun p => p.1 == k) q _ hqk,
          @List.find?_cons_of_pos _ (fun p => p.1 == k) q _ hqk]
      · rw [@List.find?_cons_of_neg _ (fun p => p.1 == k) q _ hqk,
          @List.find?_cons_of_neg _ (fun p => p.1 == k) q _ hqk, ih]

/-- A key that is not among the keys of an association list is not found. -/
theorem find?_none_of_key_not_mem {β : Type} (t : List (String × β)) (k : String)
    (h : ¬ k ∈ t.map Prod.fst) : t.find? (fun p => p.1 == k) = none := by
  induction t with
  | nil => rfl
  | cons q t ih =>
    rw [List.map_cons, List.mem_cons] at h
    push_neg at h
    rw [@List.find?_cons_of_neg _ (fun p => p.1 == k) q _
      (by rw [beq_iff_eq]; exact fun hh => h.1 hh.symm)]
    exact ih h.2

/-- Effect of `satisfyNeed` on the lookup of the satisfied kind. -/
theorem lookupNeed_satisfyNeed_self (needs : Needs) (k : String) (amount : ℚ)
    (n : Need) (hk : lookupNeed needs k = some n) :
    lookupNeed (satisfyNeed needs k amount) k
      = some { n with value := jsMin n.max (n.value + amount) } := by
  have hsome : (lookupNeed needs k).isSome := by rw [hk]; rfl
  unfold satisfyNeed
  rw [if_pos hsome]
  unfold lookupNeed at hk ⊢
  rw [lookup_map_keyUpdate (fun n => { n with value := jsMin n.max (n.value + amount) }) needs k,
    hk]
  rfl

/-- Applying `satisfyNeed` at one kind does not change the lookup of
another kind. -/
theorem lookupNeed_satisfyNeed_other (needs : Needs) (k k2 : String) (amount : ℚ)
    (hne : k ≠ k2) :
    lookupNeed (satisfyNeed needs k2 amount) k = lookupNeed needs k := by
  unfold satisfyNeed
  by_cases hs : (lookupNeed needs k2).isSome
  · rw [if_pos hs]
    unfold lookupNeed
    rw [@find?_map_keyUpdate_other Need
      (fun ν => { ν with value := jsMin ν.max (ν.value + amount) }) needs k k2 hne]
  · rw [if_neg hs]

/-! ## Claim C1 -/

/-- C1, counterexample: `satisfyNeed` is NOT clamped below at 0.  With
hunger at 50/100, amount −1000 yields value −950 < 0. -/
theorem satisfyNeed_no_lower_clamp :
    lookupNeed (satisfyNeed [("hunger", ⟨50, 100, 1/2⟩)] "hunger" (-1000)) "hunger"
      = some ⟨-950, 100, 1/2⟩ ∧ ¬ (0 : ℚ) ≤ (-950 : ℚ) := by
  constructor
  · simp only [satisfyNeed, lookupNeed, jsMin, List.find?, List.map]
    norm_num
  · norm_num

/-- C1, amended: `satisfyNeed` sets the need's value to
`min(max, value + amount)`, so the result never exceeds `max`, but it is
not clamped below 0. -/
theorem satisfyNeed_sets_min_clamped_above (needs : Needs) (k : String) (amount : ℚ)
    (n : Need) (hk : lookupNeed needs k = some n) :
    lookupNeed (satisfyNeed needs k amount) k
        = some { n with value := jsMin n.max (n.value + amount) } ∧
      jsMin n.max (n.value + amount) ≤ n.max :=
  ⟨lookupNeed_satisfyNeed_self needs k amount n hk,
   by rw [jsMin_eq_min]; exact min_le_left _ _⟩

/-- C1 witness: the amended theorem applied at a concrete input. -/
theorem satisfyNeed_sets_min_clamped_above_witness :
    lookupNeed (satisfyNeed [("thirst", ⟨40, 100, 3/5⟩)] "thirst" 1000) "thirst"
        = some { Need.mk 40 100 (3/5) with value := jsMin 100 (40 + 1000) } ∧
      jsMin 100 (40 + 1000) ≤ 100 :=
  satisfyNeed_sets_min_clamped_above [("thirst", ⟨40, 100, 3/5⟩)] "thirst" 1000
    ⟨40, 100, 3/5⟩ (by rfl)

/-! ## Claim C10 -/

/-- C10: calling `satisfyNeed` with a kind that is not present in the needs
set is a silent no-op. -/
theorem satisfyNeed_unknown_kind_noop (needs : Needs) (k : String) (amount : ℚ)
    (h : lookupNeed needs k = none) :
    satisfyNeed needs k amount = needs := by
  unfold satisfyNeed
  rw [h]
  rfl

/-- C10 witness: a misspelled kind leaves a concrete needs set unchanged. -/
theorem satisfyNeed_unknown_kind_noop_witness :
    satisfyNeed [("hunger", ⟨50, 100, 1/2⟩)] "hungre" 30 = [("hunger", ⟨50, 100, 1/2⟩)] :=
  satisfyNeed_unknown_kind_noop [("hunger", ⟨50, 100, 1/2⟩)] "hungre" 30 (by rfl)

/-! ## Claim C2 -/

/-- C2: reservation exclusivity of the functional-item contract.
Reserving while in use fails and mutates nothing; reserving while
available succeeds and transitions to in-use with zero elapsed time; after
an interruption a reserve succeeds; and whenever a tick reports completion
(elapsed time reached `maxUseTime`, auto-releasing the item), a subsequent
reserve succeeds. -/
theorem functionalItem_reservation (it : FunctionalItem) (a b : String) (dt : ℚ) :
    (it.inUse = true → it.startUse b = (false, it)) ∧
    (it.inUse = false →
      it.startUse a = (true, { it with inUse := true, usedBy := some a, useTime := 0 })) ∧
    (it.stopUse.startUse a
      = (true, { it.stopUse with inUse := true, usedBy := some a, useTime := 0 })) ∧
    ((it.updateUse dt).1 = true →
      ((it.updateUse dt).2.startUse a).1 = true) := by
  refine ⟨?_, ?_, ?_, ?_⟩
  · intro h
    simp [FunctionalItem.startUse, h]
  · intro h
    simp [FunctionalItem.startUse, h]
  · simp [FunctionalItem.stopUse, FunctionalItem.startUse]
  · intro h
    unfold FunctionalItem.updateUse at h
    by_cases hu : it.inUse
    · rw [if_pos hu] at h
      by_cases hc : it.useTime + dt ≥ it.maxUseTime
      · unfold FunctionalItem.updateUse
        rw [if_pos hu, if_pos hc]
        simp [FunctionalItem.completeUse, FunctionalItem.startUse]
      · rw [if_neg hc] at h
        exact absurd h (by simp)
    · rw [if_neg hu] at h
      exact absurd h (by simp)

/-- C2 witness: on a fresh Coffee item, a first reserve by `npc1` succeeds
and a second reserve by `npc2` while in use fails without mutation. -/
theorem functionalItem_reservation_witness :
    (((FunctionalItem.create 0 0 "Coffee" coffeeDef).startUse "npc1").2.startUse "npc2"
      = (false, ((FunctionalItem.create 0 0 "Coffee" coffeeDef).startUse "npc1").2)) ∧
    ((FunctionalItem.create 0 0 "Coffee" coffeeDef).stopUse.startUse "npc1"
      = (true, { (FunctionalItem.create 0 0 "Coffee" coffeeDef).stopUse with
                 inUse := true, usedBy := some "npc1", useTime := 0 })) :=
  ⟨(functionalItem_reservation
      ((FunctionalItem.create 0 0 "Coffee" coffeeDef).startUse "npc1").2 "npc1" "npc2" 0).1
      (by rfl),
   (functionalItem_reservation
      (FunctionalItem.create 0 0 "Coffee" coffeeDef) "npc1" "npc2" 0).2.2.1⟩

/-! ## Claim C7 -/

/-- C7: serializing an agent and deserializing the result into a fresh
agent reproduces the needs snapshot exactly (hence every need value),
while the fresh agent's transient state is the constructor's idle state:
no goal, no target item, not using, not moving. -/
theorem npc_serialize_roundtrip (npc : NPC) (x y : ℤ) (name id : String) :
    ((NPC.create x y name id).deserialize npc.serialize).needs = npc.needs ∧
    (∀ k, lookupNeed ((NPC.create x y name id).deserialize npc.serialize).needs k
      = lookupNeed npc.needs k) ∧
    ((NPC.create x y name id).deserialize npc.serialize).currentGoal = none ∧
    ((NPC.create x y name id).deserialize npc.serialize).targetItem = none ∧
    ((NPC.create x y name id).deserialize npc.serialize).usingItem = false ∧
    ((NPC.create x y name id).deserialize npc.serialize).isMoving = false :=
  ⟨rfl, fun _ => rfl, rfl, rfl, rfl, rfl⟩

/-! ## Claim C8 -/

/-- C8: the decay modifiers, for the clock constructed by `TimeSystem`'s
constructor at any clock value.  Nighttime holds exactly on
`time ≥ 1260 ∨ time < 360` (9 PM to 6 AM); sleep decays at 0.3 at night
and 1.5 by day, happiness and social at 0.7 at night and 1.0 by day, and
hunger and thirst at 1.0 at every time of day. -/
theorem timeSystem_decay_modifiers (t : ℚ) :
    (({ TimeSystem.init with currentTime := t } : TimeSystem).isNighttime = true
        ↔ (1260 ≤ t ∨ t < 360)) ∧
    ({ TimeSystem.init with currentTime := t } : TimeSystem).getNeedDecayModifier "hunger" = 1 ∧
    ({ TimeSystem.init with currentTime := t } : TimeSystem).getNeedDecayModifier "thirst" = 1 ∧
    ((1260 ≤ t ∨ t < 360) →
      ({ TimeSystem.init with currentTime := t } : TimeSystem).getNeedDecayModifier "sleep" = 3/10 ∧
      ({ TimeSystem.init with currentTime := t } : TimeSystem).getNeedDecayModifier "happiness" = 7/10 ∧
      ({ TimeSystem.init with currentTime := t } : TimeSystem).getNeedDecayModifier "social" = 7/10) ∧
    ((360 ≤ t ∧ t < 1260) →
      ({ TimeSystem.init with currentTime := t } : TimeSystem).getNeedDecayModifier "sleep" = 3/2 ∧
      ({ TimeSystem.init with currentTime := t } : TimeSystem).getNeedDecayModifier "happiness" = 1 ∧
      ({ TimeSystem.init with currentTime := t } : TimeSystem).getNeedDecayModifier "social" = 1) := by
  have hnight : ({ TimeSystem.init with currentTime := t } : TimeSystem).isNighttime = true
      ↔ (1260 ≤ t ∨ t < 360) := by
    simp only [TimeSystem.isNighttime, TimeSystem.getTimeOfDay, TimeSystem.init]
    by_cases hc : (1260 : ℚ) ≤ t ∨ t < 360
    · rw [if_pos (show t ≥ 1260 ∨ t < 360 from hc)]
      simpa using hc
    · rw [if_neg (show ¬ (t ≥ 1260 ∨ t < 360) from hc)]
      push_neg at hc
      constructor
      · intro h
        exfalso
        split_ifs at h with h1 h2 h3 h4 h5
        · exact absurd h (by decide)
        · exact absurd h (by decide)
        · exact absurd h (by decide)
        · exact absurd h (by decide)
        · exact absurd h (by decide)
        · exact h5 hc.2
      · intro h
        rcases h with h | h
        · linarith [hc.1]
        · linarith [hc.2]
  refine ⟨hnight, by rfl, by rfl, ?_, ?_⟩
  · intro h
    have hb : ({ TimeSystem.init with currentTime := t } : TimeSystem).isNighttime = true :=
      hnight.mpr h
    unfold TimeSystem.getNeedDecayModifier
    rw [hb]
    exact ⟨rfl, rfl, rfl⟩
  · intro h
    have hb : ({ TimeSystem.init with currentTime := t } : TimeSystem).isNighttime = false := by
      cases hnb : ({ TimeSystem.init with currentTime := t } : TimeSystem).isNighttime
      · rfl
      · exfalso
        rcases hnight.mp hnb with h1 | h1
        · linarith [h.2]
        · linarith [h.1]
    unfold TimeSystem.getNeedDecayModifier
    rw [hb]
    exact ⟨rfl, rfl, rfl⟩

/-- C8 witness: at the constructor's initial clock (6:00 AM, daytime) the
modifiers are 1.5 for sleep and 1.0 for the rest. -/
theorem timeSystem_decay_modifiers_witness :
    ({ TimeSystem.init with currentTime := 360 } : TimeSystem).getNeedDecayModifier "sleep" = 3/2 ∧
    ({ TimeSystem.init with currentTime := 360 } : TimeSystem).getNeedDecayModifier "happiness" = 1 ∧
    ({ TimeSystem.init with currentTime := 360 } : TimeSystem).getNeedDecayModifier "social" = 1 :=
  (timeSystem_decay_modifiers 360).2.2.2.2 (by norm_num)

/-! ## Claim C3 -/

/-- The running maximum of the urgency scan never decreases (helper). -/
theorem urgentFold_fst_le (l : Needs) (acc : ℚ × Option String) :
    acc.1 ≤ (l.foldl urgentStep acc).1 := by
  induction l generalizing acc with
  | nil => exact le_refl _
  | cons p t ih =>
    rw [List.foldl_cons]
    refine le_trans ?_ (ih (urgentStep acc p))
    unfold urgentStep
    split_ifs with h
    · exact le_of_lt h
    · exact le_refl _

/-- Every scanned priority is bounded by the final running maximum
(helper). -/
theorem urgentFold_mem_le (l : Needs) (acc : ℚ × Option String) :
    ∀ p ∈ l, p.2.priority ≤ (l.foldl urgentStep acc).1 := by
  induction l generalizing acc with
  | nil =>
    intro p hp
    cases hp
  | cons q t ih =>
    intro p hp
    rw [List.foldl_cons]
    rcases List.mem_cons.mp hp with h | h
    · subst h
      refine le_trans ?_ (urgentFold_fst_le t (urgentStep acc p))
      unfold urgentStep
      split_ifs with hgt
      · exact le_refl _
      · exact not_lt.mp hgt
    · exact ih (urgentStep acc q) p h

/-- Indexed characterization of the urgency scan: the scan either returns
the accumulator unchanged (no entry strictly beat it) or returns the
first entry whose priority strictly exceeds the accumulator and every
earlier entry (helper). -/
theorem urgentFold_spec (l : Needs) (acc : ℚ × Option String) :
    l.foldl urgentStep acc = acc ∨
    ∃ i, ∃ hi : i < l.length,
      (l.foldl urgentStep acc).1 = (l.get ⟨i, hi⟩).2.priority ∧
      (l.foldl urgentStep acc).2 = some (l.get ⟨i, hi⟩).1 ∧
      acc.1 < (l.get ⟨i, hi⟩).2.priority ∧
      ∀ j, ∀ hj : j < i, (l.get ⟨j, hj.trans hi⟩).2.priority
        < (l.get ⟨i, hi⟩).2.priority := by
  induction l generalizing acc with
  | nil =>
    left
    rfl
  | cons q t ih =>
    rw [List.foldl_cons]
    by_cases hq : q.2.priority > acc.1
    · have hstep : urgentStep acc q = (q.2.priority, some q.1) := if_pos hq
      rw [hstep]
      rcases ih (q.2.priority, some q.1) with h | ⟨i, hi, h1, h2, h3, h4⟩
      · right
        refine ⟨0, Nat.succ_pos _, ?_, ?_, hq, ?_⟩
        · rw [h]
          rfl
        · rw [h]
          rfl
        · intro j hj
          exact absurd hj (Nat.not_lt_zero j)
      · right
        refine ⟨i + 1, Nat.succ_lt_succ hi, h1, h2, lt_trans hq h3, ?_⟩
        intro j hj
        cases j with
        | zero => exact h3
        | succ j' => exact h4 j' (Nat.lt_of_succ_lt_succ hj)
    · have hstep : urgentStep acc q = acc := if_neg hq
      rw [hstep]
      rcases ih acc with h | ⟨i, hi, h1, h2, h3, h4⟩
      · left
        exact h
      · right
        refine ⟨i + 1, Nat.succ_lt_succ hi, h1, h2, h3, ?_⟩
        intro j hj
        cases j with
        | zero => exact lt_of_le_of_lt (not_lt.mp hq) h3
        | succ j' => exact h4 j' (Nat.lt_of_succ_lt_succ hj)

/-- C3: `getMostUrgentNeed` returns none exactly when every need's
priority is at most 0.3; and when it returns a kind, that kind sits at an
index whose priority exceeds 0.3, is a maximum over the whole needs set,
and strictly exceeds every earlier entry — i.e. it is the first kind
attaining the highest priority in enumeration order. -/
theorem getMostUrgentNeed_correct (needs : Needs) :
    (getMostUrgentNeed needs = none ↔ ∀ p ∈ needs, p.2.priority ≤ 3/10) ∧
    (∀ k, getMostUrgentNeed needs = some k →
      ∃ i, ∃ hi : i < needs.length,
        (needs.get ⟨i, hi⟩).1 = k ∧
        3/10 < (needs.get ⟨i, hi⟩).2.priority ∧
        (∀ p ∈ needs, p.2.priority ≤ (needs.get ⟨i, hi⟩).2.priority) ∧
        ∀ j, ∀ hj : j < i, (needs.get ⟨j, hj.trans hi⟩).2.priority
          < (needs.get ⟨i, hi⟩).2.priority) := by
  constructor
  · constructor
    · intro hnone p hp
      by_cases hgt : (needs.foldl urgentStep (0, none)).1 > 3/10
      · exfalso
        unfold getMostUrgentNeed at hnone
        rw [if_pos hgt] at hnone
        rcases urgentFold_spec needs (0, none) with h | ⟨i, hi, _, h2, _, _⟩
        · rw [h] at hgt
          norm_num at hgt
        · rw [h2] at hnone
          cases hnone
      · exact le_trans (urgentFold_mem_le needs (0, none) p hp) (not_lt.mp hgt)
    · intro hall
      unfold getMostUrgentNeed
      rw [if_neg]
      intro hgt
      rcases urgentFold_spec needs (0, none) with h | ⟨i, hi, h1, _, _, _⟩
      · rw [h] at hgt
        norm_num at hgt
      · rw [h1] at hgt
        exact absurd hgt (not_lt.mpr (hall _ (needs.get_mem i hi)))
  · intro k hk
    by_cases hgt : (needs.foldl urgentStep (0, none)).1 > 3/10
    · unfold getMostUrgentNeed at hk
      rw [if_pos hgt] at hk
      rcases urgentFold_spec needs (0, none) with h | ⟨i, hi, h1, h2, _, h4⟩
      · rw [h] at hgt
        norm_num at hgt
      · refine ⟨i, hi, ?_, ?_, ?_, h4⟩
        · rw [h2] at hk
          exact Option.some_inj.mp hk
        · rw [← h1]
          exact hgt
        · intro p hp
          rw [← h1]
          exact urgentFold_mem_le needs (0, none) p hp
    · exfalso
      unfold getMostUrgentNeed at hk
      rw [if_neg hgt] at hk
      cases hk

/-- C3 witness: on a set where thirst has the unique highest priority
0.9 > 0.3, the scan singles out thirst. -/
theorem getMostUrgentNeed_correct_witness :
    ∃ i, ∃ hi : i <
        ([("hunger", ⟨50, 100, 1/2⟩), ("thirst", ⟨10, 100, 9/10⟩)] : Needs).length,
      (([("hunger", ⟨50, 100, 1/2⟩), ("thirst", ⟨10, 100, 9/10⟩)] : Needs).get ⟨i, hi⟩).1
          = "thirst" ∧
      3/10 < (([("hunger", ⟨50, 100, 1/2⟩), ("thirst", ⟨10, 100, 9/10⟩)] : Needs).get
          ⟨i, hi⟩).2.priority ∧
      (∀ p ∈ ([("hunger", ⟨50, 100, 1/2⟩), ("thirst", ⟨10, 100, 9/10⟩)] : Needs),
        p.2.priority ≤ (([("hunger", ⟨50, 100, 1/2⟩), ("thirst", ⟨10, 100, 9/10⟩)] : Needs).get
          ⟨i, hi⟩).2.priority) ∧
      ∀ j, ∀ hj : j < i,
        (([("hunger", ⟨50, 100, 1/2⟩), ("thirst", ⟨10, 100, 9/10⟩)] : Needs).get
            ⟨j, hj.trans hi⟩).2.priority
          < (([("hunger", ⟨50, 100, 1/2⟩), ("thirst", ⟨10, 100, 9/10⟩)] : Needs).get
            ⟨i, hi⟩).2.priority :=
  (getMostUrgentNeed_correct
      [("hunger", ⟨50, 100, 1/2⟩), ("thirst", ⟨10, 100, 9/10⟩)]).2 "thirst"
    (by norm_num [getMostUrgentNeed, urgentStep])

/-! ## Claim C4 -/

/-- Every configured decay rate is nonnegative (helper). -/
theorem needTypes_decayRate_nonneg (k : String) (c : NeedConfig)
    (h : needTypes k = some c) : 0 ≤ c.decayRate := by
  unfold needTypes at h
  split_ifs at h <;> cases h <;> norm_num

/-- Every time-of-day decay modifier is nonnegative (helper). -/
theorem getNeedDecayModifier_nonneg (ts : TimeSystem) (k : String) :
    0 ≤ ts.getNeedDecayModifier k := by
  unfold TimeSystem.getNeedDecayModifier
  split_ifs <;> norm_num

/-- C4: for a needs set whose kinds are configured and whose values are
nonnegative (the data-model invariant) and any elapsed time ≥ 0, both
`updateNeeds` and the modifier-scaled decay loop of `NPC.update` keep
every key and max, leave every value no larger than before and ≥ 0,
recompute priority as `1 - value/max`, and leave every value unchanged
when the elapsed time is 0. -/
theorem needs_decay_monotone (needs : Needs) (dt : ℚ) (ts : TimeSystem)
    (hdt : 0 ≤ dt)
    (hconf : ∀ p ∈ needs, (needTypes p.1).isSome = true)
    (hval : ∀ p ∈ needs, 0 ≤ p.2.value) :
    List.Forall₂
      (fun p p' => p'.1 = p.1 ∧ p'.2.max = p.2.max ∧
        p'.2.value ≤ p.2.value ∧ 0 ≤ p'.2.value ∧
        p'.2.priority = 1 - p'.2.value / p'.2.max ∧
        (dt = 0 → p'.2.value = p.2.value))
      needs (updateNeeds needs dt) ∧
    List.Forall₂
      (fun p p' => p'.1 = p.1 ∧ p'.2.max = p.2.max ∧
        p'.2.value ≤ p.2.value ∧ 0 ≤ p'.2.value ∧
        p'.2.priority = 1 - p'.2.value / p'.2.max ∧
        (dt = 0 → p'.2.value = p.2.value))
      needs (npcDecayNeeds ts.getNeedDecayModifier needs dt) := by
  have hstep : ∀ (rate : ℚ), 0 ≤ rate → ∀ p : String × Need, p ∈ needs →
      jsMax 0 (p.2.value - rate * dt) ≤ p.2.value ∧
      0 ≤ jsMax 0 (p.2.value - rate * dt) ∧
      (dt = 0 → jsMax 0 (p.2.value - rate * dt) = p.2.value) := by
    intro rate hrate p hp
    rw [jsMax_eq_max]
    refine ⟨?_, le_max_left _ _, ?_⟩
    · apply max_le (hval p hp)
      have : 0 ≤ rate * dt := mul_nonneg hrate hdt
      linarith
    · intro h0
      rw [h0, mul_zero, sub_zero]
      exact max_eq_right (hval p hp)
  constructor
  · unfold updateNeeds
    rw [List.forall₂_map_right_iff, List.forall₂_same]
    intro p hp
    obtain ⟨c, hc⟩ := Option.isSome_iff_exists.mp (hconf p hp)
    obtain ⟨hle, hnn, hid⟩ := hstep c.decayRate (needTypes_decayRate_nonneg p.1 c hc) p hp
    simp only [hc]
    refine ⟨trivial, trivial, hle, hnn, trivial, hid⟩
  · unfold npcDecayNeeds
    rw [List.forall₂_map_right_iff, List.forall₂_same]
    intro p hp
    have hbase : 0 ≤ (match needTypes p.1 with
        | some config => if config.decayRate = 0 then 1/2 else config.decayRate
        | none => (1/2 : ℚ)) := by
      cases hc : needTypes p.1 with
      | some c =>
        by_cases h0 : c.decayRate = 0
        · simp [h0]
        · simp only [h0, if_neg]
          exact needTypes_decayRate_nonneg p.1 c hc
      | none => norm_num
    have hrate : 0 ≤ (match needTypes p.1 with
        | some config => if config.decayRate = 0 then 1/2 else config.decayRate
        | none => (1/2 : ℚ)) * ts.getNeedDecayModifier p.1 :=
      mul_nonneg hbase (getNeedDecayModifier_nonneg ts p.1)
    obtain ⟨hle, hnn, hid⟩ := hstep _ hrate p hp
    exact ⟨rfl, rfl, hle, hnn, rfl, hid⟩

/-- C4 witness: one second of decay on a half-full five-kind needs set. -/
theorem needs_decay_monotone_witness :
    List.Forall₂
      (fun p p' => p'.1 = p.1 ∧ p'.2.max = p.2.max ∧
        p'.2.value ≤ p.2.value ∧ 0 ≤ p'.2.value ∧
        p'.2.priority = 1 - p'.2.value / p'.2.max ∧
        ((1 : ℚ) = 0 → p'.2.value = p.2.value))
      initializeNeeds (updateNeeds initializeNeeds 1) ∧
    List.Forall₂
      (fun p p' => p'.1 = p.1 ∧ p'.2.max = p.2.max ∧
        p'.2.value ≤ p.2.value ∧ 0 ≤ p'.2.value ∧
        p'.2.priority = 1 - p'.2.value / p'.2.max ∧
        ((1 : ℚ) = 0 → p'.2.value = p.2.value))
      initializeNeeds (npcDecayNeeds TimeSystem.init.getNeedDecayModifier initializeNeeds 1) :=
  needs_decay_monotone initializeNeeds 1 TimeSystem.init (by norm_num)
    (by decide) (by decide)

/-! ## Claim C5 -/

/-- Pointwise effect of the side-benefit loop of `completeItemUse` on a
needs lookup: entries whose kind equals the goal kind are skipped; an
entry for any other kind present in the (duplicate-free) satisfaction
table is applied through `satisfyNeed` with its table amount — whatever
its sign; kinds not in the table are untouched (helper). -/
theorem lookupNeed_satisfies_foldl (sat : List (String × ℚ)) (goalKind : String)
    (needs : Needs) (k : String) (n : Need)
    (hnodup : (sat.map Prod.fst).Nodup)
    (hk : lookupNeed needs k = some n) :
    lookupNeed (sat.foldl (fun (acc : Needs) (p : String × ℚ) =>
        if p.1 == goalKind then acc else satisfyNeed acc p.1 p.2) needs) k
      = some (if k = goalKind then n
          else match lookupAmount sat k with
            | some a => { n with value := jsMin n.max (n.value + a) }
            | none => n) := by
  induction sat generalizing needs n with
  | nil =>
    rw [List.foldl_nil, hk]
    by_cases hkg : k = goalKind
    · rw [if_pos hkg]
    · rw [if_neg hkg]
      rfl
  | cons q t ih =>
    rw [List.foldl_cons]
    rw [List.map_cons, List.nodup_cons] at hnodup
    by_cases hqg : (q.1 == goalKind) = true
    · rw [if_pos hqg, ih needs n hnodup.2 hk]
      by_cases hkg : k = goalKind
      · rw [if_pos hkg, if_pos hkg]
      · rw [if_neg hkg, if_neg hkg]
        have hq1k : ¬ (q.1 == k) = true := by
          rw [beq_iff_eq] at hqg ⊢
          rw [hqg]
          exact fun hh => hkg hh.symm
        have hskip : lookupAmount (q :: t) k = lookupAmount t k := by
          unfold lookupAmount
          rw [@List.find?_cons_of_neg _ (fun p => p.1 == k) q _ hq1k]
        rw [hskip]
    · rw [if_neg hqg]
      by_cases hqk : q.1 = k
      · subst hqk
        have hkg : ¬ q.1 = goalKind := by
          intro h
          apply hqg
          rw [beq_iff_eq]
          exact h
        have h1 := lookupNeed_satisfyNeed_self needs q.1 q.2 n hk
        have hnone : lookupAmount t q.1 = none := by
          unfold lookupAmount
          rw [find?_none_of_key_not_mem t q.1 hnodup.1]
          rfl
        have hhit : lookupAmount (q :: t) q.1 = some q.2 := by
          unfold lookupAmount
          rw [@List.find?_cons_of_pos _ (fun p => p.1 == q.1) q _ (by rw [beq_iff_eq])]
          rfl
        rw [ih _ _ hnodup.2 h1, if_neg hkg, if_neg hkg, hnone, hhit]
      · have h1 : lookupNeed (satisfyNeed needs q.1 q.2) k = some n := by
          rw [lookupNeed_satisfyNeed_other needs k q.1 q.2 (fun hh => hqk hh.symm)]
          exact hk
        rw [ih _ _ hnodup.2 h1]
        by_cases hkg : k = goalKind
        · rw [if_pos hkg, if_pos hkg]
        · rw [if_neg hkg, if_neg hkg]
          have hskip : lookupAmount (q :: t) k = lookupAmount t k := by
            unfold lookupAmount
            rw [@List.find?_cons_of_neg _ (fun p => p.1 == k) q _
              (by rw [beq_iff_eq]; exact hqk)]
          rw [hskip]

/-- C5, counterexample: completing a coffee run (goal thirst) DOES change
the sleep need — the table's negative entry `sleep: −10` is applied, so
sleep drops from 50 to 40, where the claim says non-positive entries cause
no change. -/
theorem completeItemUse_negative_entry_changes_need :
    lookupNeed coffeeScenarioNPC.needs "sleep" = some ⟨50, 100, 1/2⟩ ∧
    lookupNeed coffeeScenarioNPC.completeItemUse.needs "sleep" = some ⟨40, 100, 1/2⟩ := by
  refine ⟨rfl, ?_⟩
  unfold NPC.completeItemUse
  have h1 : lookupNeed (satisfyNeed coffeeScenarioNPC.needs "thirst"
      ((FunctionalItem.create 2 0 "Coffee" coffeeDef).getSatisfactionAmount "thirst"))
      "sleep" = some ⟨50, 100, 1/2⟩ := by
    rw [lookupNeed_satisfyNeed_other _ _ _ _ (by decide)]
    rfl
  have h2 := lookupNeed_satisfies_foldl
    (FunctionalItem.create 2 0 "Coffee" coffeeDef).itemDef.satisfies "thirst"
    (satisfyNeed coffeeScenarioNPC.needs "thirst"
      ((FunctionalItem.create 2 0 "Coffee" coffeeDef).getSatisfactionAmount "thirst"))
    "sleep" ⟨50, 100, 1/2⟩ (by decide) h1
  have ht : coffeeScenarioNPC.targetItem = some (FunctionalItem.create 2 0 "Coffee" coffeeDef) :=
    rfl
  have hgoal : coffeeScenarioNPC.currentGoal = some ⟨"satisfy_need", "thirst"⟩ := rfl
  have hla : lookupAmount (FunctionalItem.create 2 0 "Coffee" coffeeDef).itemDef.satisfies "sleep"
      = some (-10) := rfl
  rw [ht, hgoal]
  dsimp only
  rw [h2, hla, if_neg (by decide : ¬ "sleep" = "thirst")]
  norm_num [jsMin]

/-- C5, amended: on completion the goal's primary need is satisfied by the
item's table amount; every OTHER kind the table lists is passed through
`satisfyNeed` with its table amount, positive or negative (a negative
entry, like coffee's `sleep: −10`, lowers that need); kinds not in the
table are unchanged; and the transient use state is cleared. -/
theorem completeItemUse_applies_all_entries (npc : NPC) (item : FunctionalItem)
    (goal : Goal) (hti : npc.targetItem = some item) (hg : npc.currentGoal = some goal)
    (hnodup : (item.itemDef.satisfies.map Prod.fst).Nodup) :
    npc.completeItemUse.usingItem = false ∧
    npc.completeItemUse.targetItem = none ∧
    npc.completeItemUse.currentGoal = none ∧
    ∀ k n, lookupNeed npc.needs k = some n →
      lookupNeed npc.completeItemUse.needs k
        = some (if k = goal.needType then
            { n with value := jsMin n.max (n.value + item.getSatisfactionAmount goal.needType) }
          else match lookupAmount item.itemDef.satisfies k with
            | some a => { n with value := jsMin n.max (n.value + a) }
            | none => n) := by
  unfold NPC.completeItemUse
  rw [hti, hg]
  refine ⟨rfl, rfl, rfl, ?_⟩
  intro k n hk
  dsimp only
  by_cases hkg : k = goal.needType
  · subst hkg
    have h1 := lookupNeed_satisfyNeed_self npc.needs goal.needType
      (item.getSatisfactionAmount goal.needType) n hk
    rw [lookupNeed_satisfies_foldl item.itemDef.satisfies goal.needType _ goal.needType _
        hnodup h1,
      if_pos rfl, if_pos rfl]
  · have h1 : lookupNeed (satisfyNeed npc.needs goal.needType
        (item.getSatisfactionAmount goal.needType)) k = some n := by
      rw [lookupNeed_satisfyNeed_other npc.needs k goal.needType _ hkg]
      exact hk
    rw [lookupNeed_satisfies_foldl item.itemDef.satisfies goal.needType _ k _ hnodup h1,
      if_neg hkg, if_neg hkg]

/-- C5 witness: the amended theorem applied to the concrete coffee
scenario. -/
theorem completeItemUse_applies_all_entries_witness :
    coffeeScenarioNPC.completeItemUse.usingItem = false ∧
    coffeeScenarioNPC.completeItemUse.targetItem = none ∧
    coffeeScenarioNPC.completeItemUse.currentGoal = none ∧
    ∀ k n, lookupNeed coffeeScenarioNPC.needs k = some n →
      lookupNeed coffeeScenarioNPC.completeItemUse.needs k
        = some (if k = "thirst" then
            { n with value := jsMin n.max (n.value + (FunctionalItem.create 2 0 "Coffee" coffeeDef).getSatisfactionAmount "thirst") }
          else match lookupAmount (FunctionalItem.create 2 0 "Coffee" coffeeDef).itemDef.satisfies k with
            | some a => { n with value := jsMin n.max (n.value + a) }
            | none => n) :=
  completeItemUse_applies_all_entries coffeeScenarioNPC
    (FunctionalItem.create 2 0 "Coffee" coffeeDef) ⟨"satisfy_need", "thirst"⟩
    (by rfl) (by rfl) (by decide)

/-! ## Claim C6 -/

/-- Glide step of the scenario agent: while the remaining distance is at
least one frame step (0.8 px), the movement block advances the pixel
position by 0.8 and changes nothing else (helper). -/
theorem cexNpc_glide (px : ℚ) (hd : 4/5 ≤ 32 - px) :
    NPC.updateMovement 0 (cexNpc px 0 true) = cexNpc (px + 4/5) 0 true := by
  have hdx0 : (0:ℚ) < 32 - px := by linarith
  have hnotlt : ¬ ((0:ℚ) ≤ 4/5 ∧
      (32 - px) * (32 - px) + (0 - 0) * (0 - 0) < 4/5 * (4/5)) := by
    rintro ⟨-, hlt⟩
    nlinarith [hd, hdx0]
  have hsqrt : Rat.sqrt ((32 - px) * (32 - px) + ((0:ℚ) - 0) * (0 - 0)) = 32 - px := by
    rw [show (32 - px) * (32 - px) + ((0:ℚ) - 0) * (0 - 0) = (32 - px) * (32 - px) by ring,
      Rat.sqrt_eq, abs_of_pos hdx0]
  unfold NPC.updateMovement cexNpc
  dsimp only
  rw [if_pos (show (true && !false) = true from rfl), if_neg hnotlt, hsqrt]
  rw [div_self (ne_of_gt hdx0)]
  norm_num

/-- Arrival snap of the scenario agent: with the pixel position already on
the target, the movement block snaps, recomputes the tile from the pixel
position (tile 1) and stops moving (helper). -/
theorem cexNpc_snap :
    NPC.updateMovement 0 (cexNpc 32 0 true) = cexNpc 32 1 false := by
  have hlt : ((0:ℚ) ≤ 4/5 ∧
      ((32:ℚ) - 32) * (32 - 32) + (0 - 0) * (0 - 0) < 4/5 * (4/5)) := by
    constructor <;> norm_num
  unfold NPC.updateMovement cexNpc
  dsimp only
  rw [if_pos (show (true && !false) = true from rfl), if_pos hlt]
  norm_num

/-- Manager tick of the single-agent scenario when the movement update
leaves the pixel-derived key equal to the tile key: no re-bucketing at all
(helper). -/
theorem cex_tick_nochange (px px' : ℚ) (tX tX' : ℤ) (mv mv' : Bool)
    (hupd : NPC.updateMovement 0 (cexNpc px tX mv) = cexNpc px' tX' mv')
    (hfx : ⌊px' / 32⌋ = tX') :
    EntityManager.update (NPC.updateMovement 0) (cexMgr px tX mv) = cexMgr px' tX' mv' := by
  unfold EntityManager.update cexMgr
  rw [List.foldl_cons, List.foldl_nil]
  dsimp only
  rw [if_neg (by simp [cexNpc]), if_pos (by simp [cexNpc]), hupd]
  unfold EntityManager.updateEntityPosition
  dsimp only [cexNpc]
  rw [if_neg (by rw [hfx]; norm_num)]
  rw [List.foldl_nil]
  simp [cexNpc]

/-- Manager tick of the single-agent scenario at the glide step that lands
exactly on the target pixel: here the pixel-derived key (tile 1) differs
from the stale tile key (tile 0), so the manager unindexes and reindexes —
both at the CURRENT tile key (0,0) — leaving the bucket map unchanged
(helper). -/
theorem cex_tick_land :
    EntityManager.update (NPC.updateMovement 0) (cexMgr (156/5) 0 true)
      = cexMgr 32 0 true := by
  have hupd := cexNpc_glide (156/5) (by norm_num)
  unfold EntityManager.update cexMgr
  rw [List.foldl_cons, List.foldl_nil]
  dsimp only
  rw [if_neg (by simp [cexNpc]), if_pos (by simp [cexNpc]), hupd]
  rw [show (156:ℚ)/5 + 4/5 = 32 by norm_num]
  unfold EntityManager.updateEntityPosition
  dsimp only [cexNpc]
  rw [if_pos (by norm_num)]
  unfold EntityManager.unindexEntityPosition EntityManager.indexEntityPosition
  dsimp only [cexNpc]
  rw [List.foldl_nil]
  simp [cexNpc, bucketRemove, bucketAdd]

/-- The glide prefix of the run: after `k ≤ 39` ticks the agent has moved
`0.8 k` pixels and nothing has been re-bucketed (helper). -/
theorem cex_run_glide (k : ℕ) (hk : k ≤ 39) :
    (EntityManager.update (NPC.updateMovement 0))^[k] (cexMgr 0 0 true)
      = cexMgr (4/5 * k) 0 true := by
  induction k with
  | zero => norm_num
  | succ k ih =>
    have hk' : k ≤ 39 := le_trans (Nat.le_succ k) hk
    have h38 : (k:ℚ) ≤ 38 := by exact_mod_cast Nat.lt_succ_iff.mp (Nat.lt_of_succ_le hk)
    have hcast : (4:ℚ)/5 * ((k + 1 : ℕ) : ℚ) = 4/5 * k + 4/5 := by push_cast; ring
    rw [hcast, Function.iterate_succ_apply', ih hk']
    have hstep := cexNpc_glide (4/5 * k) (by linarith)
    exact cex_tick_nochange (4/5 * k) (4/5 * k + 4/5) 0 0 true true hstep
      (by
        have h0 : (0:ℚ) ≤ (k:ℚ) := Nat.cast_nonneg k
        rw [Int.floor_eq_zero_iff]
        refine Set.mem_Ico.mpr ⟨by positivity, ?_⟩
        rw [div_lt_one (by norm_num : (0:ℚ) < 32)]
        linarith)

/-- C6: the failing run.  An agent spawned at tile (0,0) and commanded to
tile (1,0) is, after its movement completes (41 manager ticks at 0.8
px/frame), indexed at tile (1,0) in its own fields but still sits in the
position bucket of tile (0,0): the position-bucket invariant is violated,
because `updateEntityPosition` compares `floor(pixel/32)` with the tile
fields only after the arrival snap has already synchronized them, and its
unindex/reindex both use the current tile key. -/
theorem entityManager_stale_bucket :
    (EntityManager.update (NPC.updateMovement 0))^[41]
        (EntityManager.empty.add ((NPC.create 0 0 "Bob" "npc1").moveTo 1 0))
      = cexMgr 32 1 false ∧
    (cexMgr 32 1 false).entities.map (fun e => (e.tileX, e.tileY)) = [(1, 0)] ∧
    (cexMgr 32 1 false).entitiesByPosition = [((0, 0), ["npc1"])] ∧
    (cexMgr 32 1 false).positionInvariant = false := by
  refine ⟨?_, by decide, by decide, by decide⟩
  have hm0 : EntityManager.empty.add ((NPC.create 0 0 "Bob" "npc1").moveTo 1 0)
      = cexMgr 0 0 true := by
    simp [EntityManager.empty, EntityManager.add, EntityManager.indexEntityPosition,
      NPC.create, NPC.moveTo, cexMgr, cexNpc, bucketAdd]
  rw [hm0, show (41 : ℕ) = 1 + 1 + 39 from rfl,
    Function.iterate_add_apply, Function.iterate_add_apply,
    cex_run_glide 39 (le_refl 39),
    show (4:ℚ)/5 * ((39:ℕ):ℚ) = 156/5 by push_cast; ring,
    Function.iterate_one, cex_tick_land]
  exact cex_tick_nochange 32 32 0 1 true false cexNpc_snap (by norm_num)

/-! ## Claim C9 -/

/-- One relationship update keeps every stored value inside `[-100, 100]`
when every stored value was inside before (helper step lemma). -/
theorem updateRelationship_step_bounds (n : NPC) (otherId : String) (change now : ℚ)
    (hinv : ∀ p ∈ n.relationships, -100 ≤ p.2.value ∧ p.2.value ≤ 100) :
    ∀ p ∈ (n.updateRelationship otherId change now).relationships,
      -100 ≤ p.2.value ∧ p.2.value ≤ 100 := by
  intro p hp
  unfold NPC.updateRelationship at hp
  simp only [List.mem_map] at hp
  obtain ⟨q, hq, hpq⟩ := hp
  have hqbound : -100 ≤ q.2.value ∧ q.2.value ≤ 100 := by
    by_cases hs : (n.relationships.find? (fun p => p.1 == otherId)).isSome
    · rw [if_pos hs] at hq
      exact hinv q hq
    · rw [if_neg hs] at hq
      rcases List.mem_append.mp hq with h | h
      · exact hinv q h
      · rw [List.mem_singleton.mp h]
        norm_num
  by_cases hk : (q.1 == otherId) = true
  · rw [if_pos hk] at hpq
    rw [← hpq]
    constructor
    · rw [jsMax_eq_max]
      exact le_max_left _ _
    · rw [jsMax_eq_max, jsMin_eq_min]
      exact max_le (by norm_num) (min_le_left _ _)
  · rw [if_neg hk] at hpq
    rw [← hpq]
    exact hqbound

/-- C9: starting from any relationship map whose values are inside
`[-100, 100]` (the constructor starts empty), any sequence of relationship
updates with arbitrary deltas keeps every stored value inside
`[-100, 100]`; and an update for an id with no record creates it lazily at
value 0 and clamps `0 + change`, with one interaction counted. -/
theorem npc_relationship_bounds (n : NPC) (updates : List (String × ℚ × ℚ))
    (hinv : ∀ p ∈ n.relationships, -100 ≤ p.2.value ∧ p.2.value ≤ 100) :
    (∀ p ∈ (updates.foldl (fun a u => a.updateRelationship u.1 u.2.1 u.2.2) n).relationships,
        -100 ≤ p.2.value ∧ p.2.value ≤ 100) ∧
    (∀ otherId change now, lookupRel n.relationships otherId = none →
        lookupRel (n.updateRelationship otherId change now).relationships otherId
          = some ⟨jsMax (-100) (jsMin 100 (0 + change)), 0 + 1, now⟩) := by
  constructor
  · induction updates generalizing n with
    | nil => exact hinv
    | cons u rest ih =>
      rw [List.foldl_cons]
      exact ih _ (updateRelationship_step_bounds n u.1 u.2.1 u.2.2 hinv)
  · intro otherId change now hnone
    have hfind : n.relationships.find? (fun p => p.1 == otherId) = none :=
      Option.map_eq_none'.mp hnone
    unfold NPC.updateRelationship lookupRel
    rw [if_neg (by rw [hfind]; simp)]
    dsimp only
    rw [List.map_append, List.find?_append,
      @find?_map_keyUpdate_none Relationship
        (fun r => ⟨jsMax (-100) (jsMin 100 (r.value + change)), r.interactions + 1, now⟩)
        n.relationships otherId hfind]
    simp

/-- C9 witness: a fresh agent (empty relationship map) given one update of
+300 toward `b`. -/
theorem npc_relationship_bounds_witness :
    (∀ p ∈ ([("b", (300 : ℚ), (5 : ℚ))].foldl
        (fun a u => a.updateRelationship u.1 u.2.1 u.2.2)
        (NPC.create 0 0 "A" "a1")).relationships,
      -100 ≤ p.2.value ∧ p.2.value ≤ 100) ∧
    (∀ otherId change now,
      lookupRel (NPC.create 0 0 "A" "a1").relationships otherId = none →
        lookupRel ((NPC.create 0 0 "A" "a1").updateRelationship otherId change now).relationships
            otherId
          = some ⟨jsMax (-100) (jsMin 100 (0 + change)), 0 + 1, now⟩) :=
  npc_relationship_bounds (NPC.create 0 0 "A" "a1") [("b", 300, 5)]
    (by simp [NPC.create])

end SimDev
